import Mathlib

/-!
Verification of the Inspo.ai backend aggregation pipeline.

This file is a shallow embedding of the JavaScript source of the
Inspo.ai-Backend repository (src/server.js, src/updatedserver.txt and the
unnamed variant src/unnamed/part_000).  JavaScript values that may be
`undefined` are modelled as `Option String`; JavaScript truthiness on
strings ("" and undefined are falsy) is made explicit everywhere.
Upstream HTTP calls are modelled by passing the settled outcome of the
call as an `Except String payload` argument: a thrown/rejected call is
`.error e`, a fulfilled one is `.ok payload`.
-/

/-! ## Basic JavaScript string primitives -/

/-- JavaScript `a || d` for an optional string `a`: `undefined` and `""` are
falsy and fall through to the default. -/
def jsOr (a : Option String) (d : String) : String :=
  match a with
  | none => d
  | some s => if s = "" then d else s

/-- JavaScript `a || ''`: `undefined` becomes the empty string. -/
def jsOrEmpty (a : Option String) : String :=
  match a with
  | none => ""
  | some s => s

/-- Whitespace characters recognised by JavaScript `\s` and `trim()`
(the ASCII ones plus NBSP and the BOM, which cover the inputs of this
development). -/
def isJsSpace (c : Char) : Bool :=
  c = ' ' || c = '\t' || c = '\n' || c = '\r' || c = '\x0b' || c = '\x0c' ||
  c = ' ' || c = '﻿'

/-- JavaScript `String.prototype.trim`. -/
def jsTrim (s : String) : String :=
  String.mk (((s.data.dropWhile isJsSpace).reverse.dropWhile isJsSpace).reverse)

/-- JavaScript `String.prototype.toLowerCase` (ASCII case mapping). -/
def jsToLower (s : String) : String :=
  String.mk (s.data.map Char.toLower)

/-- Substring test on character lists, mirroring JavaScript
`String.prototype.includes`: the needle is a prefix of some suffix of the
haystack (the empty needle is contained everywhere). -/
def containsSub : List Char → List Char → Bool
  | [], needle => needle.isEmpty
  | a :: t, needle => needle.isPrefixOf (a :: t) || containsSub t needle

/-- String-level wrapper for `containsSub`. -/
def strContains (s sub : String) : Bool :=
  containsSub s.data sub.data

/-- JavaScript `String.prototype.split(' ')`: splits on every single space,
producing empty pieces for leading, trailing or doubled spaces, and `[""]`
for the empty string. -/
def splitSpaceGo : List Char → List Char → List String
  | [], acc => [String.mk acc.reverse]
  | ' ' :: rest, acc => String.mk acc.reverse :: splitSpaceGo rest []
  | c :: rest, acc => splitSpaceGo rest (c :: acc)

/-- See `splitSpaceGo`. -/
def jsSplitSpace (s : String) : List String :=
  splitSpaceGo s.data []

/-- JavaScript `Array.prototype.join(' ')`. -/
def joinSpace : List String → String
  | [] => ""
  | [p] => p
  | p :: q :: rest => p ++ " " ++ joinSpace (q :: rest)

/-! ## Result items

Only the fields that the aggregation pipeline itself reads are modelled
at this level: the deduplication key `image` (the item's image URL,
`none` when the producing adapter left it `undefined`), the `title`
(read by the relevance sort) and the `source` (read by the source sort).
-/

/-- An item flowing through the combine/dedup/sort steps of the
`/search` handlers. -/
structure ResultItem where
  image : Option String
  title : String
  source : String
deriving DecidableEq

/-! ## Deduplication

Two implementations exist in the source:

* `updatedserver.txt` lines 619-628: walk `allImages`, keep an item iff its
  `image` URL is not in the `imageUrls` set (`uniqueImages` loop);
* `src/unnamed/part_000` lines 995-1001 (`filterDuplicates`): a stateful
  filter sharing one `seenUrls` set across calls, which additionally drops
  items whose `image` is falsy (`undefined` or `""`).
-/

/-- The `uniqueImages` loop of `app.get("/search")` in updatedserver.txt:
`seen` is the `imageUrls` set. -/
def dedupImagesGo : List ResultItem → List (Option String) → List ResultItem
  | [], _ => []
  | x :: xs, seen =>
    if x.image ∈ seen then dedupImagesGo xs seen
    else x :: dedupImagesGo xs (x.image :: seen)

/-- Deduplicate a combined image list by raw image URL, first occurrence
winning (updatedserver.txt lines 619-628). -/
def dedupImages (l : List ResultItem) : List ResultItem :=
  dedupImagesGo l []

/-- The `filterDuplicates` helper of `src/unnamed/part_000` lines 995-1001:
`images.filter(img => { if (!img.image || seenUrls.has(img.image)) return
false; seenUrls.add(img.image); return true; })`, with the mutable
`seenUrls` set threaded explicitly. -/
def filterDuplicates : List String → List ResultItem → List ResultItem × List String
  | seen, [] => ([], seen)
  | seen, x :: xs =>
    match x.image with
    | none => filterDuplicates seen xs
    | some u =>
      if u = "" ∨ u ∈ seen then filterDuplicates seen xs
      else
        let r := filterDuplicates (u :: seen) xs
        (x :: r.1, r.2)

/-! ### Dedup lemmas -/

theorem dedupImagesGo_filter (k : Option String) :
    ∀ (l : List ResultItem) (seen : List (Option String)),
    (dedupImagesGo l seen).filter (fun x => decide (x.image = k)) =
      if k ∈ seen then [] else (l.find? (fun x => decide (x.image = k))).toList := by
  intro l
  induction l with
  | nil =>
    intro seen
    simp [dedupImagesGo]
  | cons x xs ih =>
    intro seen
    by_cases hx : x.image ∈ seen
    · rw [dedupImagesGo, if_pos hx, ih seen]
      by_cases hk : k ∈ seen
      · simp [hk]
      · have hxk : ¬ (x.image = k) := fun h => hk (h ▸ hx)
        rw [if_neg hk, if_neg hk, List.find?_cons_of_neg _ (by simp [hxk])]
    · rw [dedupImagesGo, if_neg hx]
      by_cases hxk : x.image = k
      · have hk : ¬ (k ∈ seen) := fun h => hx (hxk ▸ h)
        rw [List.filter_cons_of_pos (by simp [hxk]), ih (x.image :: seen)]
        have hmem : k ∈ x.image :: seen := by simp [hxk]
        rw [if_pos hmem, if_neg hk, List.find?_cons_of_pos _ (by simp [hxk])]
        rfl
      · rw [List.filter_cons_of_neg (by simp [hxk]), ih (x.image :: seen)]
        have hne : ¬ (k = x.image) := fun h => hxk h.symm
        by_cases hk : k ∈ seen
        · rw [if_pos (List.mem_cons_of_mem _ hk), if_pos hk]
        · have hnotin : ¬ (k ∈ x.image :: seen) := by simp [hne, hk]
          rw [if_neg hnotin, if_neg hk, List.find?_cons_of_neg _ (by simp [hxk])]

theorem filterDuplicates_filter (k : String) (hk : k ≠ "") :
    ∀ (l : List ResultItem) (seen : List String),
    ((filterDuplicates seen l).1).filter (fun x => decide (x.image = some k)) =
      if k ∈ seen then [] else (l.find? (fun x => decide (x.image = some k))).toList := by
  intro l
  induction l with
  | nil =>
    intro seen
    simp [filterDuplicates]
  | cons x xs ih =>
    intro seen
    obtain ⟨img, tl, src⟩ := x
    cases img with
    | none =>
      have hstep : filterDuplicates seen (⟨none, tl, src⟩ :: xs) = filterDuplicates seen xs := rfl
      rw [hstep, ih seen]
      by_cases hks : k ∈ seen
      · rw [if_pos hks, if_pos hks]
      · rw [if_neg hks, if_neg hks,
          List.find?_cons_of_neg _ (by simp)]
    | some u =>
      by_cases hdrop : u = "" ∨ u ∈ seen
      · have hstep : filterDuplicates seen (⟨some u, tl, src⟩ :: xs) = filterDuplicates seen xs := by
          show (if u = "" ∨ u ∈ seen then _ else _) = _
          rw [if_pos hdrop]
        rw [hstep, ih seen]
        by_cases hks : k ∈ seen
        · rw [if_pos hks, if_pos hks]
        · have huk : ¬ (u = k) := by
            rcases hdrop with h1 | h2
            · exact fun h => hk (h ▸ h1)
            · exact fun h => hks (h ▸ h2)
          rw [if_neg hks, if_neg hks, List.find?_cons_of_neg _ (by simp [huk])]
      · have hstep : filterDuplicates seen (⟨some u, tl, src⟩ :: xs) =
            ((⟨some u, tl, src⟩ : ResultItem) :: (filterDuplicates (u :: seen) xs).1,
              (filterDuplicates (u :: seen) xs).2) := by
          show (if u = "" ∨ u ∈ seen then _ else _) = _
          rw [if_neg hdrop]
        rw [hstep]
        push_neg at hdrop
        by_cases huk : u = k
        · have hks : ¬ (k ∈ seen) := huk ▸ hdrop.2
          rw [List.filter_cons_of_pos (by simp [huk]), ih (u :: seen)]
          have hmem : k ∈ u :: seen := by simp [huk]
          rw [if_pos hmem, if_neg hks, List.find?_cons_of_pos _ (by simp [huk])]
          rfl
        · rw [List.filter_cons_of_neg (by simp [huk]), ih (u :: seen)]
          have hne : ¬ (k = u) := fun h => huk h.symm
          by_cases hks : k ∈ seen
          · rw [if_pos (List.mem_cons_of_mem _ hks), if_pos hks]
          · have hnotin : ¬ (k ∈ u :: seen) := by simp [hne, hks]
            rw [if_neg hnotin, if_neg hks, List.find?_cons_of_neg _ (by simp [huk])]

theorem dedupImagesGo_sublist :
    ∀ (l : List ResultItem) (seen : List (Option String)),
    (dedupImagesGo l seen).Sublist l := by
  intro l
  induction l with
  | nil => intro seen; simp [dedupImagesGo]
  | cons x xs ih =>
    intro seen
    rw [dedupImagesGo]
    by_cases hx : x.image ∈ seen
    · rw [if_pos hx]
      exact (ih seen).cons x
    · rw [if_neg hx]
      exact (ih (x.image :: seen)).cons₂ x

theorem filterDuplicates_sublist :
    ∀ (l : List ResultItem) (seen : List String),
    ((filterDuplicates seen l).1).Sublist l := by
  intro l
  induction l with
  | nil => intro seen; simp [filterDuplicates]
  | cons x xs ih =>
    intro seen
    obtain ⟨img, tl, src⟩ := x
    cases img with
    | none => exact ((ih seen).cons _ : _)
    | some u =>
      by_cases hdrop : u = "" ∨ u ∈ seen
      · have hstep : filterDuplicates seen (⟨some u, tl, src⟩ :: xs) = filterDuplicates seen xs := by
          show (if u = "" ∨ u ∈ seen then _ else _) = _
          rw [if_pos hdrop]
        rw [hstep]
        exact (ih seen).cons _
      · have hstep : filterDuplicates seen (⟨some u, tl, src⟩ :: xs) =
            ((⟨some u, tl, src⟩ : ResultItem) :: (filterDuplicates (u :: seen) xs).1,
              (filterDuplicates (u :: seen) xs).2) := by
          show (if u = "" ∨ u ∈ seen then _ else _) = _
          rw [if_neg hdrop]
        rw [hstep]
        exact (ih (u :: seen)).cons₂ _

/-! ## Claim theorems: C1 and C10 -/

/-- C1: feeding the combined result list to the deduplication step keeps,
for every distinct dedup key (the item's image URL, taken verbatim — the
"normalisation" in the source is the identity), exactly the item that
appears earliest in the fixed concatenation order, and drops every later
item sharing that key, regardless of which provider produced it.  Stated
for the `uniqueImages` loop of updatedserver.txt (`dedupImages`) over all
keys `k`, and for `filterDuplicates` of src/unnamed/part_000 over all
non-falsy keys `k2` (that variant additionally discards items whose image
URL is falsy and hence have no dedup key). -/
theorem dedup_first_occurrence_wins
    (l : List ResultItem) (k : Option String) (k2 : String)
    (hdup : ¬ (l.map ResultItem.image).Nodup) (hk2 : k2 ≠ "") :
    (dedupImages l).filter (fun x => decide (x.image = k)) =
      (l.find? (fun x => decide (x.image = k))).toList
    ∧ ((filterDuplicates [] l).1).filter (fun x => decide (x.image = some k2)) =
      (l.find? (fun x => decide (x.image = some k2))).toList := by
  constructor
  · have h := dedupImagesGo_filter k l []
    simpa [dedupImages] using h
  · have h := filterDuplicates_filter k2 hk2 l []
    simpa using h

/-- Concrete instance for `dedup_first_occurrence_wins`: a three-item list
whose first and third items share the image URL "u1". -/
def c1Items : List ResultItem :=
  [⟨some "u1", "first", "Google Images"⟩,
   ⟨some "u2", "second", "Freepik"⟩,
   ⟨some "u1", "third", "Pinterest"⟩]

theorem dedup_first_occurrence_wins_witness :
    (¬ ((c1Items.map ResultItem.image).Nodup)) ∧ ("u1" : String) ≠ "" ∧
    ((dedupImages c1Items).filter (fun x => decide (x.image = some "u1")) =
        (c1Items.find? (fun x => decide (x.image = some "u1"))).toList
      ∧ ((filterDuplicates [] c1Items).1).filter (fun x => decide (x.image = some "u1")) =
        (c1Items.find? (fun x => decide (x.image = some "u1"))).toList) :=
  ⟨by decide, by decide,
    dedup_first_occurrence_wins c1Items (some "u1") "u1" (by decide) (by decide)⟩

/-- C10: the deduplication step only ever removes items — its output is a
sublist of its input, so the surviving items keep their relative order and
none of their fields is altered (the category tag of the source is mapped
on afterwards).  Stated for both dedup implementations, the second with an
arbitrary already-seen set since its `seenUrls` persists across calls. -/
theorem dedup_output_sublist (l : List ResultItem) (seen : List String) :
    (dedupImages l).Sublist l ∧ ((filterDuplicates seen l).1).Sublist l :=
  ⟨dedupImagesGo_sublist l [], filterDuplicates_sublist l seen⟩

/-! ## The /search request validation and the AI-image gate

All three handler variants destructure `const { q, ... } = req.query` and
guard with `if (!q) return res.status(400).json(...)` before anything
else; when the guard passes, every provider fetch in the fan-out is
launched unconditionally.  The AI-image call is guarded separately by
`ai === "true"`.
-/

/-- JavaScript truthiness of a query parameter: absent (`undefined`) and
`""` are falsy, every other string is truthy. -/
def jsTruthyOpt (q : Option String) : Bool :=
  match q with
  | none => false
  | some s => s != ""

/-- Model of the `if (!q) return res.status(400)...` guard in
`app.get("/search")` (src/server.js:380-381, updatedserver.txt:538). -/
def searchRejected (q : Option String) : Bool :=
  ! jsTruthyOpt q

/-- Number of provider fetches issued by the `/search` handler for a given
`q`: the early 400 return short-circuits the fan-out, otherwise the whole
fan-out of `fanoutSize` fetches runs. -/
def searchProviderCalls (q : Option String) (fanoutSize : Nat) : Nat :=
  if jsTruthyOpt q then fanoutSize else 0

/-- A string that is non-empty and consists only of whitespace. -/
def isWhitespaceOnlyStr (s : String) : Bool :=
  (! s.isEmpty) && s.data.all isJsSpace

/-- C2 counterexample: for the whitespace-only query "   " the guard
`if (!q)` does not fire ("   " is truthy in JavaScript), so the handler
does not answer 400 and all provider fetches of the fan-out (7 in
src/server.js) are launched, contradicting the claim that whitespace-only
queries are rejected before any provider call. -/
theorem search_whitespace_only_not_rejected :
    isWhitespaceOnlyStr "   " = true ∧
    searchRejected (some "   ") = false ∧
    searchProviderCalls (some "   ") 7 = 7 := by
  decide

/-- C2 (amended): only a missing or empty `q` makes the `/search` handler
answer 400 with no provider fetch; a whitespace-only `q` passes the guard
and the full fan-out runs. -/
theorem search_validation_amended (q : Option String) (n : Nat)
    (h : q = none ∨ q = some "") :
    searchRejected q = true ∧ searchProviderCalls q n = 0 := by
  rcases h with h | h <;> subst h <;>
    simp [searchRejected, searchProviderCalls, jsTruthyOpt]

theorem search_validation_amended_witness :
    ((some "" : Option String) = none ∨ (some "" : Option String) = some "") ∧
    (searchRejected (some "") = true ∧ searchProviderCalls (some "") 7 = 0) :=
  ⟨Or.inr rfl, search_validation_amended (some "") 7 (Or.inr rfl)⟩

/-- The gate for AI image generation: `ai === "true"` where `ai` is the raw
query parameter with destructuring default `false`
(src/server.js:380,416; src/unnamed/part_000 lines 307,346 and 917,983). -/
def aiRequested (ai : Option String) : Bool :=
  match ai with
  | none => false
  | some v => v == "true"

/-- The `freepikAIResults` binding: call the generator only when the gate
is satisfied, otherwise the AI-result list is `[]` without any call. -/
def freepikAIGate (ai : Option String) (generated : List ResultItem) : List ResultItem :=
  if aiRequested ai then generated else []

/-- C9: the AI-image-generation adapter runs iff the `ai` query parameter
is exactly the string "true" (strict `===` comparison): for any other
value, including "TRUE", "1" or an absent parameter, the gate is closed
and the AI-generated result list is empty; for `ai = "true"` the
generator's output is passed through. -/
theorem ai_gate_strict_equality (ai : Option String) (generated : List ResultItem)
    (h : ai ≠ some "true") :
    freepikAIGate ai generated = [] ∧
    aiRequested ai = false ∧
    freepikAIGate (some "true") generated = generated := by
  have hreq : aiRequested ai = false := by
    cases ai with
    | none => rfl
    | some v =>
      have hv : v ≠ "true" := fun hveq => h (hveq ▸ rfl)
      simp [aiRequested, hv]
  refine ⟨?_, hreq, ?_⟩
  · simp [freepikAIGate, hreq]
  · simp [freepikAIGate, aiRequested]

/-- Concrete AI-generated item used by the C9 witness. -/
def aiItemC9 : ResultItem :=
  ⟨some "https://img.freepik.com/ai/1.png", "AI Generated Design", "Freepik AI"⟩

theorem ai_gate_strict_equality_witness :
    ((some "TRUE" : Option String) ≠ some "true") ∧
    (freepikAIGate (some "TRUE") [aiItemC9] = [] ∧
     aiRequested (some "TRUE") = false ∧
     freepikAIGate (some "true") [aiItemC9] = [aiItemC9]) :=
  ⟨by decide, ai_gate_strict_equality (some "TRUE") [aiItemC9] (by decide)⟩

/-! ## Heading extraction

The three handler variants share `extractHeading`, built around the regex
`/^#\s+([^\n]+)|^##\s+([^\n]+)|^(.+?)\n/` (src/server.js:285-291,
src/unnamed/part_000 lines 179-187 and 822-828).  All three alternatives
are anchored at the start of the string, so the engine tries them in
order at position 0 only.  The `\s+` is greedy with backtracking, the
final `[^\n]+` and the lazy `(.+?)` always capture at least one
character, so a successful group is never the empty string.
-/

/-- Backtracking for `\s+([^\n]+)`: try the whitespace run length from `k`
down to 1 and take the first where the following greedy `[^\n]+` is
non-empty.  Returns the captured group. -/
def tryW (rest : List Char) : Nat → Option (List Char)
  | 0 => none
  | k + 1 =>
    let content := (rest.drop (k + 1)).takeWhile (fun c => c != '\n')
    if content.isEmpty then tryW rest k else some content

/-- Match `\s+([^\n]+)` against a prefix of `rest` and return the group. -/
def matchSpacePlus (rest : List Char) : Option (List Char) :=
  tryW rest (rest.takeWhile isJsSpace).length

/-- First regex alternative `^#\s+([^\n]+)`. -/
def matchAlt1 (cs : List Char) : Option (List Char) :=
  match cs with
  | [] => none
  | c :: rest => if c = '#' then matchSpacePlus rest else none

/-- Second regex alternative `^##\s+([^\n]+)`. -/
def matchAlt2 (cs : List Char) : Option (List Char) :=
  match cs with
  | c1 :: c2 :: rest => if c1 = '#' && c2 = '#' then matchSpacePlus rest else none
  | _ => none

/-- Third regex alternative `^(.+?)\n`: the lazy group captures the
shortest non-empty newline-free prefix followed by a newline, i.e. the
first line, provided the string does not start with a newline and a
newline exists. -/
def matchAlt3 (cs : List Char) : Option (List Char) :=
  let p := cs.takeWhile (fun c => c != '\n')
  if p.isEmpty then none
  else if p.length < cs.length then some p else none

/-- The `extractHeading` helper: first matching alternative's group,
trimmed, with default "Design Recommendations" when the regex does not
match at all (a matched group is non-empty, hence truthy, so the
`|| "Design Recommendations"` fallback only fires on no match). -/
def extractHeading (s : String) : String :=
  match matchAlt1 s.data with
  | some g => jsTrim (String.mk g)
  | none =>
    match matchAlt2 s.data with
    | some g => jsTrim (String.mk g)
    | none =>
      match matchAlt3 s.data with
      | some g => jsTrim (String.mk g)
      | none => "Design Recommendations"

theorem takeWhile_no_newline (l : List Char) (h : ∀ c ∈ l, c ≠ '\n') :
    l.takeWhile (fun c => c != '\n') = l := by
  induction l with
  | nil => rfl
  | cons c rest ih =>
    have hc : (c != '\n') = true := by
      simpa using h c (List.mem_cons_self c rest)
    rw [List.takeWhile_cons, hc]
    simp only [if_true]
    rw [ih (fun d hd => h d (List.mem_cons_of_mem c hd))]

/-- C5 counterexample: on text with no leading heading marker and no
newline the extractor returns the default, not the trimmed full text:
all three alternatives need either a leading `#` or a newline after the
first line, so `"minimal logo"` does not match and the claim's expected
value `"minimal logo"` is not returned. -/
theorem extractHeading_no_newline_counterexample :
    extractHeading "minimal logo" = "Design Recommendations" ∧
    jsTrim "minimal logo" = "minimal logo" ∧
    ("Design Recommendations" : String) ≠ "minimal logo" := by
  refine ⟨by decide, by decide, by decide⟩

/-- C5 (amended): a leading markdown heading line is extracted and trimmed
("# Bold Modern Branding\n..." gives "Bold Modern Branding"); the empty
string gives the default "Design Recommendations"; and text with no
leading `#` and no newline also gives the default (the `^(.+?)\n`
alternative requires a newline), not the trimmed full text. -/
theorem extractHeading_amended (s : String)
    (h1 : ∀ c ∈ s.data, c ≠ '\n') (h2 : s.data.head? ≠ some '#') :
    extractHeading "# Bold Modern Branding\n## COLOR PALETTE..." = "Bold Modern Branding" ∧
    extractHeading "" = "Design Recommendations" ∧
    extractHeading s = "Design Recommendations" := by
  refine ⟨by decide, by decide, ?_⟩
  rw [extractHeading]
  cases hcs : s.data with
  | nil => rfl
  | cons c rest =>
    have hch : c ≠ '#' := by
      rw [hcs] at h2
      simpa using h2
    have halt1 : matchAlt1 (c :: rest) = none := by
      simp [matchAlt1, hch]
    have halt2 : matchAlt2 (c :: rest) = none := by
      cases rest with
      | nil => rfl
      | cons c2 r2 => simp [matchAlt2, hch]
    have halt3 : matchAlt3 (c :: rest) = none := by
      have hall : ∀ d ∈ c :: rest, d ≠ '\n' := by
        intro d hd
        exact h1 d (hcs ▸ hd)
      rw [matchAlt3]
      simp only [takeWhile_no_newline _ hall]
      have hne : ¬ ((c :: rest).isEmpty = true) := by simp
      rw [if_neg hne, if_neg (lt_irrefl _)]
    rw [halt1, halt2, halt3]

theorem extractHeading_amended_witness :
    (∀ c ∈ ("minimal logo" : String).data, c ≠ '\n') ∧
    (("minimal logo" : String).data.head? ≠ some '#') ∧
    (extractHeading "# Bold Modern Branding\n## COLOR PALETTE..." = "Bold Modern Branding" ∧
     extractHeading "" = "Design Recommendations" ∧
     extractHeading "minimal logo" = "Design Recommendations") :=
  ⟨by decide, by decide, extractHeading_amended "minimal logo" (by decide) (by decide)⟩

/-! ## Fan-out join and combination (C6)

updatedserver.txt line 599 joins the launched fetches with
`Promise.allSettled(searchPromises)` and lines 607-617 combine the image
results: `if (results[i].status === 'fulfilled') allImages = [...allImages,
...results[i].value]`.  Each launched fetch is modelled by its settled
outcome: `.ok items` for a fulfilled promise, `.error e` for a rejected
one (an adapter that throws before its own catch, or a non-adapter
promise such as `generateColorPalette` that rethrows).
-/

/-- The fulfilled-results accumulation loop over the settled outcomes of
the image fetches (updatedserver.txt lines 607-617). -/
def combineFulfilled (outcomes : List (Except String (List ResultItem))) : List ResultItem :=
  outcomes.foldl
    (fun acc r =>
      match r with
      | .ok imgs => acc ++ imgs
      | .error _ => acc)
    []

theorem combineFulfilled_foldl_acc (outcomes : List (Except String (List ResultItem)))
    (acc : List ResultItem) :
    outcomes.foldl
      (fun acc r =>
        match r with
        | .ok imgs => acc ++ imgs
        | .error _ => acc)
      acc = acc ++ combineFulfilled outcomes := by
  induction outcomes generalizing acc with
  | nil => simp [combineFulfilled]
  | cons r rest ih =>
    rw [combineFulfilled, List.foldl_cons, List.foldl_cons, ih, ih]
    cases r with
    | ok imgs => simp
    | error e => simp

/-- C6: the settle-all join never lets a rejected adapter abort the batch —
removing a rejected outcome from anywhere in the settled list leaves the
combined image list unchanged (the other adapters' items are all kept),
and when every fetch fulfils, the combination is exactly the
concatenation of their item lists.  The combining step is a total
function of the settled outcomes, so the handler itself does not raise
for a provider-level failure. -/
theorem allSettled_tolerates_failure
    (pre post : List (Except String (List ResultItem))) (e : String)
    (ls : List (List ResultItem)) :
    combineFulfilled (pre ++ .error e :: post) = combineFulfilled (pre ++ post) ∧
    combineFulfilled (ls.map .ok) = ls.flatten := by
  constructor
  · rw [combineFulfilled, combineFulfilled, List.foldl_append, List.foldl_append,
      List.foldl_cons]
  · induction ls with
    | nil => rfl
    | cons l rest ih =>
      rw [List.map_cons, combineFulfilled, List.foldl_cons]
      show List.foldl _ ([] ++ l) _ = _
      rw [combineFulfilled_foldl_acc, ih, List.flatten_cons, List.nil_append]

/-! ## Sorting the merged sequence (C7)

updatedserver.txt lines 630-648: when `sortBy === "relevance"` the
deduplicated list is sorted with the comparator `bRelevance - aRelevance`
where an item's relevance is the number of entries of
`q.toLowerCase().split(' ')` contained in its lower-cased title; when
`sortBy === "source"` it is sorted by a fixed provider-priority list via
`indexOf` (with -1 for unknown sources); otherwise the list is left in
its insertion order.  `Array.prototype.sort` is required to be stable, so
the sort is modelled by a stable merge sort whose `le a b` is
"comparator(a,b) ≤ 0".
-/

/-- Relevance of an item: `queryWords.filter(word =>
title.toLowerCase().includes(word)).length`. -/
def relCount (qws : List String) (item : ResultItem) : Nat :=
  (qws.filter (fun w => containsSub (jsToLower item.title).data w.data)).length

/-- The stable-sort order induced by the relevance comparator
`bRel - aRel ≤ 0`, i.e. descending relevance. -/
def relevanceLe (qws : List String) (a b : ResultItem) : Bool :=
  decide (relCount qws b ≤ relCount qws a)

/-- The query token list `q.toLowerCase().split(' ')`. -/
def queryWords (q : String) : List String :=
  jsSplitSpace (jsToLower q)

/-- JavaScript `Array.prototype.indexOf`: -1 when absent. -/
def jsIndexOf (l : List String) (s : String) : Int :=
  match l.findIdx? (fun t => t == s) with
  | none => -1
  | some i => (i : Int)

/-- The fixed provider-priority list of the `sortBy === "source"` branch. -/
def sourceOrder : List String :=
  ["Dribbble", "Behance", "Designspiration", "Muzli", "Instagram", "Google Images"]

/-- The stable-sort order induced by the source comparator. -/
def sourceLe (a b : ResultItem) : Bool :=
  decide (jsIndexOf sourceOrder a.source ≤ jsIndexOf sourceOrder b.source)

/-- The `sortBy` dispatch of `app.get("/search")` in updatedserver.txt
(lines 630-648); the subsequent `slice(0, 12)` truncation is a separate
step.  A stable sort of the already-materialised `uniqueImages` copy. -/
def sortImages (sortBy : Option String) (q : String) (images : List ResultItem) :
    List ResultItem :=
  if sortBy = some "relevance" then images.mergeSort (relevanceLe (queryWords q))
  else if sortBy = some "source" then images.mergeSort sourceLe
  else images

theorem relevanceLe_trans (q : String) (a b c : ResultItem)
    (hab : relevanceLe (queryWords q) a b) (hbc : relevanceLe (queryWords q) b c) :
    relevanceLe (queryWords q) a c := by
  simp only [relevanceLe, decide_eq_true_eq] at hab hbc ⊢
  omega

theorem relevanceLe_total (q : String) (a b : ResultItem) :
    relevanceLe (queryWords q) a b || relevanceLe (queryWords q) b a := by
  simp only [relevanceLe]
  rcases Nat.le_total (relCount (queryWords q) b) (relCount (queryWords q) a) with h | h
  · simp [h]
  · simp [h]

/-- C7: with `sortBy=relevance` the merged sequence is sorted by the count
of query tokens contained in each title, descending, and the sort is
stable — for every relevance value `c`, the items of relevance `c` appear
in the sorted output exactly in their original relative order; without a
`sortBy` the sequence keeps the insertion order of the concatenation
step. -/
theorem sortBy_relevance_stable_descending (q : String) (items : List ResultItem) (c : Nat) :
    sortImages none q items = items ∧
    (sortImages (some "relevance") q items).Pairwise
      (fun a b => relCount (queryWords q) b ≤ relCount (queryWords q) a) ∧
    (sortImages (some "relevance") q items).filter
        (fun x => decide (relCount (queryWords q) x = c)) =
      items.filter (fun x => decide (relCount (queryWords q) x = c)) := by
  have hrel : sortImages (some "relevance") q items =
      items.mergeSort (relevanceLe (queryWords q)) := by
    simp [sortImages]
  refine ⟨by simp [sortImages], ?_, ?_⟩
  · rw [hrel]
    have hsorted := List.sorted_mergeSort
      (relevanceLe_trans q) (relevanceLe_total q) items
    exact hsorted.imp (fun h => by
      simpa [relevanceLe, decide_eq_true_eq] using h)
  · rw [hrel]
    set p : ResultItem → Bool := fun x => decide (relCount (queryWords q) x = c) with hp
    have hpw : (items.filter p).Pairwise
        (fun a b => relevanceLe (queryWords q) a b = true) := by
      apply List.pairwise_of_forall_mem_list
      intro a ha b hb
      have hac : relCount (queryWords q) a = c := by
        have := (List.mem_filter.mp ha).2
        simpa [hp] using this
      have hbc : relCount (queryWords q) b = c := by
        have := (List.mem_filter.mp hb).2
        simpa [hp] using this
      simp [relevanceLe, hac, hbc]
    have h1 : List.Sublist (items.filter p) (items.mergeSort (relevanceLe (queryWords q))) :=
      List.sublist_mergeSort (relevanceLe_trans q) (relevanceLe_total q)
        hpw (List.filter_sublist items)
    have h2 : List.Sublist ((items.filter p).filter p)
        ((items.mergeSort (relevanceLe (queryWords q))).filter p) :=
      h1.filter p
    have hff : (items.filter p).filter p = items.filter p := by
      simp [List.filter_filter]
    rw [hff] at h2
    have h3 : List.Perm ((items.mergeSort (relevanceLe (queryWords q))).filter p)
        (items.filter p) :=
      (List.mergeSort_perm items (relevanceLe (queryWords q))).filter p
    exact (h2.eq_of_length h3.length_eq.symm).symm

/-! ## Provider adapters (C3)

Each adapter wraps its whole body in `try { ... } catch { return []; }`.
The settled outcome of every upstream HTTP call (axios request, puppeteer
navigation/evaluation) is passed in as an `Except String payload`:
`.error e` stands for any network failure, non-2xx status, timeout or
thrown `TypeError`, all of which land in the adapter's catch block.
Missing fields of an otherwise fulfilled JSON payload are `Option`s.
-/

/-- A raw entry of SerpAPI's `images_results`. -/
structure SerpRaw where
  original : Option String
  title : Option String
  source : Option String
  link : Option String
deriving DecidableEq

/-- The parsed SerpAPI response body; `images_results` may be absent, in
which case the `.slice` access throws inside the try block. -/
structure SerpResponse where
  images_results : Option (List SerpRaw)
deriving DecidableEq

/-- An image object built by `fetchSerpAPIImages` in src/server.js. -/
structure SerpImage where
  image : Option String
  title : String
  source : String
  url : String
deriving DecidableEq

/-- The `validateImage` probe (src/server.js:160-167): a HEAD request with
a 5s timeout; `probe` is the outcome "responded 200 with an image
content-type"; any probe error, including probing `undefined`, yields
false. -/
def validateImage (u : Option String) (probe : String → Bool) : Bool :=
  match u with
  | none => false
  | some url => probe url

/-- The `fetchSerpAPIImages` adapter of src/server.js:170-198: map the
first `limit` raw results and keep only those passing `validateImage`. -/
def fetchSerpAPIImages (resp : Except String SerpResponse) (limit : Nat)
    (probe : String → Bool) : List SerpImage :=
  match resp with
  | .error _ => []
  | .ok r =>
    match r.images_results with
    | none => []
    | some raws =>
      let images := (raws.take limit).map (fun img =>
        (⟨img.original, jsOr img.title "Design Inspiration", "Google Images",
          jsOr img.source (jsOr img.link "")⟩ : SerpImage))
      images.filter (fun img => validateImage img.image probe)

/-- A raw item of a Google Custom Search response. -/
structure GoogleItem where
  link : String
  title : Option String
  contextLink : Option String
  displayLink : Option String
  snippet : Option String
deriving DecidableEq

/-- The parsed Google Custom Search response body. -/
structure GoogleResponse where
  items : Option (List GoogleItem)
deriving DecidableEq

/-- An image object built by `processGoogleResults` in
src/unnamed/part_000. -/
structure GoogleImage where
  image : String
  title : String
  source : String
  url : String
  snippet : String
  id : String
deriving DecidableEq

/-- The base64 alphabet. -/
def base64Chars : List Char :=
  "ABCDEFGHIJKLMNOPQRSTUVWXYZabcdefghijklmnopqrstuvwxyz0123456789+/".data

/-- Character for a 6-bit group. -/
def b64char (n : Nat) : Char :=
  base64Chars.getD n 'A'

/-- Standard base64 of a byte list, as produced by
`Buffer.toString('base64')`. -/
def base64Encode : List Nat → List Char
  | [] => []
  | [b1] => [b64char (b1 / 4), b64char (b1 % 4 * 16), '=', '=']
  | [b1, b2] => [b64char (b1 / 4), b64char (b1 % 4 * 16 + b2 / 16), b64char (b2 % 16 * 4), '=']
  | b1 :: b2 :: b3 :: rest =>
    b64char (b1 / 4) :: b64char (b1 % 4 * 16 + b2 / 16) ::
      b64char (b2 % 16 * 4 + b3 / 64) :: b64char (b3 % 64) :: base64Encode rest

/-- The short id `Buffer.from(link).toString('base64').substring(0, 12)`. -/
def mkGoogleId (link : String) : String :=
  String.mk ((base64Encode (link.toUTF8.toList.map (fun b => b.toNat))).take 12)

/-- The per-response dedup loop of `processGoogleResults` (seenIds set). -/
def processGoogleResultsGo : List GoogleImage → List String → List GoogleImage
  | [], _ => []
  | x :: xs, seen =>
    if x.id ∈ seen then processGoogleResultsGo xs seen
    else x :: processGoogleResultsGo xs (x.id :: seen)

/-- The `processGoogleResults` helper of src/unnamed/part_000 lines
598-621: map raw items to image objects with a base64 id and drop
duplicate ids. -/
def processGoogleResults (items : List GoogleItem) : List GoogleImage :=
  let images := items.map (fun item =>
    (⟨item.link, jsOr item.title "Design Inspiration", "Google Images",
      jsOr item.contextLink (jsOr item.displayLink ""),
      jsOr item.snippet "", mkGoogleId item.link⟩ : GoogleImage))
  processGoogleResultsGo images []

/-- The `fetchGoogleImages` adapter of src/unnamed/part_000 lines 545-595:
when the primary response has no items and the query has more than three
space-separated words, a simplified fallback query is issued inside the
same try block; any thrown error anywhere lands in the catch and yields
`[]`. -/
def fetchGoogleImages (query : String) (limit : Nat)
    (primary : Except String GoogleResponse)
    (fallback : Except String GoogleResponse) : List GoogleImage :=
  match primary with
  | .error _ => []
  | .ok r =>
    match r.items with
    | some (item :: rest) => processGoogleResults (item :: rest)
    | _ =>
      if 3 < (jsSplitSpace query).length then
        match fallback with
        | .error _ => []
        | .ok fr =>
          match fr.items with
          | none => []
          | some items2 => processGoogleResults items2
      else []

/-- A shot scraped from the Dribbble search page: the fields read by the
`page.evaluate` callback of `scrapeDribbble` (updatedserver.txt lines
108-140).  `img` is the `src` of the shot's `<img>` (none when the
element is missing), `title`/`designer`/`link` are the optional DOM
texts, `colorChips` the `.color-chip` background colours (already
defaulted to `''`). -/
structure DribbbleShot where
  img : Option String
  title : Option String
  designer : Option String
  link : Option String
  colorChips : List String
deriving DecidableEq

/-- An item built by `scrapeDribbble`. -/
structure DribbbleItem where
  image : String
  title : String
  designer : String
  link : String
  source : String
  colors : List String
deriving DecidableEq

/-- JavaScript `String.prototype.replace('#', '')`: drop the first `#`. -/
def replaceFirstHash : List Char → List Char
  | [] => []
  | '#' :: rest => rest
  | c :: rest => c :: replaceFirstHash rest

/-- The inner `colorMatch` test: some chip's lower-cased colour string
contains the lower-cased hex colour without its leading `#`. -/
def dribbbleColorMatch (hexColorLower : List Char) (shotColors : List String) : Bool :=
  shotColors.any (fun ch => containsSub (ch.data.map Char.toLower) (replaceFirstHash hexColorLower))

/-- The extraction loop of `scrapeDribbble`'s `page.evaluate` callback:
`n` is `data.length` so far; shots with a missing `<img>` are skipped;
when a colour filter is active, non-matching shots are skipped once half
of `limit` is collected (`data.length >= limit / 2` under JavaScript
float division is `2 * n >= limit`); the loop breaks when `limit` items
are collected. -/
def scrapeDribbbleGo (limit : Nat) (colorHex : Option String) :
    List DribbbleShot → Nat → List DribbbleItem
  | [], _ => []
  | shot :: rest, n =>
    match shot.img with
    | none => scrapeDribbbleGo limit colorHex rest n
    | some image =>
      let skip :=
        match colorHex with
        | none => false
        | some ch =>
          if ch = "" then false
          else
            (! shot.colorChips.isEmpty) &&
            (! dribbbleColorMatch (ch.data.map Char.toLower) shot.colorChips) &&
            decide (limit ≤ 2 * n)
      if skip then scrapeDribbbleGo limit colorHex rest n
      else
        let item : DribbbleItem :=
          ⟨image, jsOr (shot.title.map jsTrim) "Dribbble Design",
            jsOr (shot.designer.map jsTrim) "Unknown Designer",
            jsOr shot.link "", "Dribbble", shot.colorChips⟩
        if limit ≤ n + 1 then [item]
        else item :: scrapeDribbbleGo limit colorHex rest (n + 1)

/-- The `scrapeDribbble` adapter of updatedserver.txt lines 96-148: any
failure of the puppeteer launch, navigation or evaluation lands in the
catch and yields `[]`; on success the evaluate loop walks the first
`min(shots.length, limit * 2)` shots. -/
def scrapeDribbble (scrape : Except String (List DribbbleShot)) (limit : Nat)
    (colorHex : Option String) : List DribbbleItem :=
  match scrape with
  | .error _ => []
  | .ok shots => scrapeDribbbleGo limit colorHex (shots.take (min shots.length (limit * 2))) 0

/-- C3: every modelled provider adapter maps any upstream failure to the
empty list instead of raising: a rejected/thrown call (network failure,
non-2xx, timeout) and a fulfilled but malformed payload (missing
`images_results`/`items`) all give `[]`; for `fetchGoogleImages` this
also covers a failing or malformed fallback request.  The adapters are
total functions of the settled outcomes, so nothing propagates to the
caller. -/
theorem adapters_fail_soft (e e2 : String) (limit : Nat) (probe : String → Bool)
    (q : String) (colorHex : Option String) (fb : Except String GoogleResponse) :
    fetchSerpAPIImages (.error e) limit probe = [] ∧
    fetchSerpAPIImages (.ok ⟨none⟩) limit probe = [] ∧
    scrapeDribbble (.error e) limit colorHex = [] ∧
    fetchGoogleImages q limit (.error e) fb = [] ∧
    fetchGoogleImages q limit (.ok ⟨none⟩) (.error e2) = [] ∧
    fetchGoogleImages q limit (.ok ⟨none⟩) (.ok ⟨none⟩) = [] := by
  refine ⟨rfl, rfl, rfl, rfl, ?_, ?_⟩
  · rw [fetchGoogleImages]
    split
    · rename_i heq
      simp at heq
    · split <;> rfl
  · rw [fetchGoogleImages]
    split
    · rename_i heq
      simp at heq
    · split <;> rfl

/-! ## Colour extraction (C4)

Two extractors exist in the source:

* `extractColorPalette` of src/unnamed/part_000 lines 172-176: the hex
  matches of `/#([A-Fa-f0-9]{6}|[A-Fa-f0-9]{3})/g`, first three kept;
* `nlpUtils.extractAdvancedColorPalette` of src/server.js:79-109 (same
  code at part_000 lines 456-484): hex matches plus named colours plus
  the input colour, deduplicated insertion-first, then — when fewer than
  3 but at least 1 colour was found — extended by a randomly chosen
  colour-theory scheme applied to the first colour.  The colour-theory
  helpers `rotateHue` and `adjustColorBrightness` return their argument
  unchanged, so every scheme contributes two copies of the base colour.

The scanners below implement the JavaScript global regex semantics with
explicit fuel (one unit per scan position) so that they stay structurally
recursive and kernel-evaluable.
-/

/-- Characters matched by `[A-Fa-f0-9]`. -/
def isHexDigit (c : Char) : Bool :=
  ('0' ≤ c && c ≤ '9') || ('a' ≤ c && c ≤ 'f') || ('A' ≤ c && c ≤ 'F')

/-- Global scan for `/#([A-Fa-f0-9]{6}|[A-Fa-f0-9]{3})/g`: at each `#` try
six hex digits, then three; on a match continue after it, otherwise
advance one character.  `fuel` starts at the list length and decreases at
every position, while each step consumes at least one character. -/
def scanHexGo : Nat → List Char → List String
  | 0, _ => []
  | _ + 1, [] => []
  | fuel + 1, c :: rest =>
    if c = '#' then
      let ds := rest.takeWhile isHexDigit
      if 6 ≤ ds.length then String.mk ('#' :: ds.take 6) :: scanHexGo fuel (rest.drop 6)
      else if 3 ≤ ds.length then String.mk ('#' :: ds.take 3) :: scanHexGo fuel (rest.drop 3)
      else scanHexGo fuel rest
    else scanHexGo fuel rest

/-- All matches of the hex-colour regex over a character list. -/
def scanHex (l : List Char) : List String :=
  scanHexGo l.length l

/-- JavaScript word characters `[A-Za-z0-9_]`, for `\b` boundaries. -/
def isWordChar (c : Char) : Bool :=
  ('a' ≤ c && c ≤ 'z') || ('A' ≤ c && c ≤ 'Z') || ('0' ≤ c && c ≤ '9') || c = '_'

/-- The colour-name alternation of `colorNameRegex` (no name is a prefix
of another, so alternation order does not matter). -/
def colorWords : List String :=
  ["red", "blue", "green", "yellow", "purple", "orange", "pink", "brown",
   "gray", "black", "white"]

/-- Case-insensitive prefix match of a lower-case pattern. -/
def matchesWordCI : List Char → List Char → Bool
  | [], _ => true
  | _ :: _, [] => false
  | p :: ps, c :: cs => (p = Char.toLower c) && matchesWordCI ps cs

/-- The `\b` boundary after a match of length `n`: end of input or a
non-word character. -/
def boundaryAfter (n : Nat) (l : List Char) : Bool :=
  match l.drop n with
  | [] => true
  | c :: _ => ! isWordChar c

/-- Try to match one colour word at the current position (the boundary
before the position is checked by the caller). -/
def findColorWord (l : List Char) : Option String :=
  colorWords.find? (fun w => matchesWordCI w.data l && boundaryAfter w.data.length l)

/-- Global scan for `/\b(red|blue|...)\b/gi`: attempt a match only at
word-boundary positions, return the matched substrings in original case,
continue scanning after each match. -/
def scanNamesGo : Nat → List Char → Bool → List String
  | 0, _, _ => []
  | _ + 1, [], _ => []
  | fuel + 1, c :: rest, prevWord =>
    if prevWord then scanNamesGo fuel rest (isWordChar c)
    else
      match findColorWord (c :: rest) with
      | some w =>
        String.mk ((c :: rest).take w.length) ::
          scanNamesGo fuel ((c :: rest).drop w.length) true
      | none => scanNamesGo fuel rest (isWordChar c)

/-- All matches of the colour-name regex over a character list. -/
def scanNames (l : List Char) : List String :=
  scanNamesGo l.length l false

/-- The `colorMap` lookup of `generateColorFromNames`
(src/server.js:111-126); unknown names give `[]`. -/
def colorNameMap (name : String) : List String :=
  if name = "red" then ["#FF0000", "#DC143C", "#B22222"]
  else if name = "blue" then ["#0000FF", "#1E90FF", "#4169E1"]
  else if name = "green" then ["#008000", "#32CD32", "#3CB371"]
  else if name = "yellow" then ["#FFD700", "#FFFF00", "#FFA500"]
  else if name = "purple" then ["#800080", "#8A2BE2", "#9400D3"]
  else if name = "orange" then ["#FFA500", "#FF4500", "#FF6347"]
  else if name = "pink" then ["#FFC0CB", "#FF69B4", "#FF1493"]
  else if name = "brown" then ["#8B4513", "#A52A2A", "#D2691E"]
  else if name = "gray" then ["#808080", "#A9A9A9", "#696969"]
  else if name = "black" then ["#000000"]
  else if name = "white" then ["#FFFFFF"]
  else []

/-- The `generateColorFromNames` helper: `colorNames.flatMap(name =>
colorMap[name] || [])`. -/
def generateColorFromNames (names : List String) : List String :=
  names.flatMap colorNameMap

/-- The `rotateHue` stub of the source: returns the hex unchanged. -/
def rotateHue (hex : String) (degrees : Int) : String :=
  hex

/-- The `adjustColorBrightness` stub of the source: returns the hex
unchanged. -/
def adjustColorBrightness (hex : String) (percent : ℚ) : String :=
  hex

/-- The `generateComplementaryColors` helper. -/
def generateComplementaryColors (baseColor : String) : List String :=
  [adjustColorBrightness baseColor 0.2, adjustColorBrightness baseColor (-0.2)]

/-- The `generateAnalogousColors` helper. -/
def generateAnalogousColors (baseColor : String) : List String :=
  [rotateHue baseColor 30, rotateHue baseColor (-30)]

/-- The `generateTriadicColors` helper. -/
def generateTriadicColors (baseColor : String) : List String :=
  [rotateHue baseColor 120, rotateHue baseColor (-120)]

/-- Insertion-order keys of `colorTheoryMappings`. -/
def colorSchemeNames : List String :=
  ["complementary", "analogous", "triadic"]

/-- Dispatch `colorTheoryMappings[generativeScheme](baseColor)`. -/
def applyScheme (scheme : String) (base : String) : List String :=
  if scheme = "complementary" then generateComplementaryColors base
  else if scheme = "analogous" then generateAnalogousColors base
  else generateTriadicColors base

/-- JavaScript `[...new Set(xs)]`: keep the first occurrence of each
element, in insertion order. -/
def dedupFirstGo : List String → List String → List String
  | [], _ => []
  | x :: xs, seen => if x ∈ seen then dedupFirstGo xs seen else x :: dedupFirstGo xs (x :: seen)

/-- See `dedupFirstGo`. -/
def dedupFirst (l : List String) : List String :=
  dedupFirstGo l []

/-- The `extractAdvancedColorPalette` method of src/server.js:79-109.
`rand` models `Math.floor(Math.random() * 3)`, selecting one of the three
colour-theory schemes; an `inputColor` of `undefined` or `""` is falsy
and contributes nothing. -/
def extractAdvancedColorPalette (aiSuggestions : String) (inputColor : Option String)
    (rand : Nat) : List String :=
  let hexCodes := scanHex aiSuggestions.data
  let colorNames := (scanNames aiSuggestions.data).map jsToLower
  let inputColors : List String :=
    match inputColor with
    | none => []
    | some cstr => if cstr = "" then [] else [cstr]
  let allColors := dedupFirst (hexCodes ++ inputColors ++ generateColorFromNames colorNames)
  let extended :=
    if allColors.length < 3 ∧ 0 < allColors.length then
      allColors ++
        applyScheme (colorSchemeNames.getD (rand % 3) "complementary") (allColors.headD "")
    else allColors
  extended.take 5

/-- The simple `extractColorPalette` of src/unnamed/part_000 lines
172-176: first three hex matches. -/
def extractColorPalette (aiSuggestions : String) : List String :=
  (scanHex aiSuggestions.data).take 3

theorem applyScheme_stub (s b : String) : applyScheme s b = [b, b] := by
  rw [applyScheme]
  by_cases h1 : s = "complementary"
  · simp [h1, generateComplementaryColors, adjustColorBrightness]
  · by_cases h2 : s = "analogous" <;>
      simp [h1, h2, generateAnalogousColors, generateTriadicColors, rotateHue]

/-- C4 counterexample: on the claim's own input
"Primary: #FF5733, Secondary: #33FF57" (no input colour) the advanced
extractor finds the two hex codes, sees fewer than three colours, and
appends the colour-theory output — two copies of the first colour, since
the colour-theory helpers are identity stubs — so it does not return
exactly the two-element list the claim states, and its output is not
duplicate-free. -/
theorem color_palette_counterexample :
    extractAdvancedColorPalette "Primary: #FF5733, Secondary: #33FF57" none 0 =
      ["#FF5733", "#33FF57", "#FF5733", "#FF5733"] ∧
    extractAdvancedColorPalette "Primary: #FF5733, Secondary: #33FF57" none 0 ≠
      ["#FF5733", "#33FF57"] := by
  constructor
  · decide
  · decide

/-- C4 (amended): the simple extractor returns exactly
["#FF5733", "#33FF57"] on the claim's input; the advanced extractor
returns those two followed by two copies of the first (for every random
scheme choice, because the colour-theory helpers are identity stubs); on
text with no hex codes and no named colours both extractors return `[]`
with nothing synthesized; and the advanced palette always has at most 5
entries — but it is not duplicate-free in the synthesis case. -/
theorem color_palette_amended (s : String) (inputRand : Nat)
    (h1 : scanHex s.data = []) (h2 : scanNames s.data = []) :
    extractColorPalette "Primary: #FF5733, Secondary: #33FF57" = ["#FF5733", "#33FF57"] ∧
    (∀ r : Nat, extractAdvancedColorPalette "Primary: #FF5733, Secondary: #33FF57" none r =
      ["#FF5733", "#33FF57", "#FF5733", "#FF5733"]) ∧
    extractAdvancedColorPalette s none inputRand = [] ∧
    extractColorPalette s = [] ∧
    (∀ (t : String) (c : Option String) (r : Nat),
      (extractAdvancedColorPalette t c r).length ≤ 5) := by
  refine ⟨by decide, ?_, ?_, ?_, ?_⟩
  · intro r
    have hhex : scanHex ("Primary: #FF5733, Secondary: #33FF57" : String).data =
        ["#FF5733", "#33FF57"] := by decide
    have hnames : scanNames ("Primary: #FF5733, Secondary: #33FF57" : String).data = [] := by
      decide
    simp only [extractAdvancedColorPalette, hhex, hnames, applyScheme_stub]
    decide
  · simp only [extractAdvancedColorPalette, h1, h2]
    simp [generateColorFromNames, dedupFirst, dedupFirstGo]
  · simp only [extractColorPalette, h1]
    rfl
  · intro t c r
    simp only [extractAdvancedColorPalette]
    exact List.length_take_le _ _

theorem color_palette_amended_witness :
    scanHex ("No colours are mentioned here." : String).data = [] ∧
    scanNames ("No colours are mentioned here." : String).data = [] ∧
    (extractColorPalette "Primary: #FF5733, Secondary: #33FF57" = ["#FF5733", "#33FF57"] ∧
     (∀ r : Nat, extractAdvancedColorPalette "Primary: #FF5733, Secondary: #33FF57" none r =
       ["#FF5733", "#33FF57", "#FF5733", "#FF5733"]) ∧
     extractAdvancedColorPalette "No colours are mentioned here." none 2 = [] ∧
     extractColorPalette "No colours are mentioned here." = [] ∧
     (∀ (t : String) (c : Option String) (r : Nat),
       (extractAdvancedColorPalette t c r).length ≤ 5)) :=
  ⟨by decide, by decide,
    color_palette_amended "No colours are mentioned here." 2 (by decide) (by decide)⟩

/-! ## Query construction (C8)

src/server.js:388-395 builds the provider queries by template-string
interpolation with `|| ''` guards, so an absent (`undefined`) optional
field is rendered as the empty string, never as the literal "undefined";
the second variant in src/unnamed/part_000 (lines 927-946) instead uses
`[q, industry, ...].filter(Boolean).join(' ')`, which drops absent and
empty fields entirely.  The lemmas below show that a needle without
spaces (such as "undefined") cannot appear in a space-joined string
unless it appears in one of the joined parts.
-/

/-- The query of slot 1: `${q} ${industry || ''} ${font || ''} design
inspiration`. -/
def industryFontQuery (q : String) (industry font : Option String) : String :=
  q ++ " " ++ jsOrEmpty industry ++ " " ++ jsOrEmpty font ++ " design inspiration"

/-- The query of slot 2: `${q} ${designStyle || ''} ${color || ''} design
inspiration`. -/
def colorStyleQuery (q : String) (designStyle color : Option String) : String :=
  q ++ " " ++ jsOrEmpty designStyle ++ " " ++ jsOrEmpty color ++ " design inspiration"

/-- The query of slot 3: `Top industries using ${designStyle || ''}
design`. -/
def topIndustriesQuery (designStyle : Option String) : String :=
  "Top industries using " ++ jsOrEmpty designStyle ++ " design"

/-- The query of slot 4: `(${q} ${industry || ''} ${designStyle ||
''}).trim()`. -/
def mainFreepikQuery (q : String) (industry designStyle : Option String) : String :=
  jsTrim (q ++ " " ++ jsOrEmpty industry ++ " " ++ jsOrEmpty designStyle)

/-- The query of slot 5: the first extracted palette colour when one
exists, otherwise the raw colour filter. -/
def colorFreepikQuery (q : String) (colorPalette : List String) (color : Option String) :
    String :=
  match colorPalette with
  | c0 :: _ => jsTrim (q ++ " " ++ c0)
  | [] => jsTrim (q ++ " " ++ jsOrEmpty color)

/-- The `[ ... ].filter(Boolean).join(' ')` builder of the part_000
variant: absent (`undefined`) and empty entries are dropped. -/
def filterBooleanJoin (parts : List (Option String)) : String :=
  joinSpace (((parts.filterMap id).filter (fun s => s != "")))

/-- The `enhancedQuery` of src/unnamed/part_000 lines 928-934. -/
def enhancedQuery (q : String) (industry font designStyle : Option String) : String :=
  filterBooleanJoin [some q, industry, font, designStyle, some "design inspiration"]

/-- The `mainFreepikQuery` of src/unnamed/part_000 line 945. -/
def mainFreepikQueryV2 (q : String) (industry designStyle font : Option String) : String :=
  filterBooleanJoin [some q, industry, designStyle, font]

/-- Character list of the literal "undefined". -/
def undefChars : List Char := ("undefined" : String).data

/-! ### Containment lemmas -/

theorem containsSub_true_iff (n : List Char) :
    ∀ hay, containsSub hay n = true ↔ n <:+: hay := by
  intro hay
  induction hay with
  | nil => simp [containsSub, List.isEmpty_iff, List.infix_nil]
  | cons a t ih =>
    rw [containsSub, Bool.or_eq_true, ih, List.isPrefixOf_iff_prefix, List.infix_cons_iff]

theorem prefix_drop_sep (n A B : List Char) (c : Char) (hc : c ∉ n)
    (h : n <+: A ++ c :: B) : n <+: A := by
  rcases le_or_lt n.length A.length with hle | hgt
  · have htake := List.prefix_iff_eq_take.mp h
    rw [List.take_append_eq_append_take] at htake
    have h0 : n.length - A.length = 0 := Nat.sub_eq_zero_of_le hle
    rw [h0, List.take_zero, List.append_nil] at htake
    rw [htake]
    exact List.take_prefix _ _
  · exfalso
    have htake := List.prefix_iff_eq_take.mp h
    rw [List.take_append_eq_append_take] at htake
    have h2 : (c :: B).take (n.length - A.length) =
        c :: B.take (n.length - A.length - 1) := by
      cases hk : n.length - A.length with
      | zero => omega
      | succ m => simp
    rw [h2] at htake
    apply hc
    rw [htake]
    exact List.mem_append_right _ (List.mem_cons_self _ _)

theorem infix_split (n A B : List Char) (c : Char) (hc : c ∉ n)
    (h : n <:+: A ++ c :: B) : n <:+: A ∨ n <:+: B := by
  induction A with
  | nil =>
    rw [List.nil_append, List.infix_cons_iff] at h
    rcases h with hp | hi
    · cases n with
      | nil => exact Or.inl List.nil_infix
      | cons d ds =>
        exfalso
        rw [List.cons_prefix_cons] at hp
        apply hc
        rw [← hp.1]
        exact List.mem_cons_self d ds
    · exact Or.inr hi
  | cons a A' ih =>
    rw [List.cons_append, List.infix_cons_iff] at h
    rcases h with hp | hi
    · have hp' : n <+: a :: A' := by
        have hform : n <+: (a :: A') ++ c :: B := by simpa using hp
        exact prefix_drop_sep n (a :: A') B c hc hform
      exact Or.inl hp'.isInfix
    · rcases ih hi with h1 | h2
      · exact Or.inl (List.infix_cons h1)
      · exact Or.inr h2

theorem containsSub_glue (n x y : List Char) (hne : n ≠ []) (hsp : ' ' ∉ n)
    (hx : containsSub x n = false) (hy : containsSub y n = false) :
    containsSub (x ++ ' ' :: y) n = false := by
  cases hcc : containsSub (x ++ ' ' :: y) n with
  | false => rfl
  | true =>
    exfalso
    have h := (containsSub_true_iff n _).mp hcc
    rcases infix_split n x y ' ' hsp h with h1 | h2
    · have hx2 := (containsSub_true_iff n x).mpr h1
      rw [hx] at hx2
      exact Bool.noConfusion hx2
    · have hy2 := (containsSub_true_iff n y).mpr h2
      rw [hy] at hy2
      exact Bool.noConfusion hy2

theorem joinSpace_no_needle (n : List Char) (hne : n ≠ []) (hsp : ' ' ∉ n) :
    ∀ parts : List String, (∀ p ∈ parts, containsSub p.data n = false) →
      containsSub (joinSpace parts).data n = false := by
  intro parts
  induction parts with
  | nil =>
    intro _
    show containsSub [] n = false
    cases n with
    | nil => exact absurd rfl hne
    | cons c t => rfl
  | cons p rest ih =>
    intro hall
    cases rest with
    | nil =>
      show containsSub p.data n = false
      exact hall p (List.mem_cons_self _ _)
    | cons q2 rest2 =>
      have hdata : (joinSpace (p :: q2 :: rest2)).data =
          p.data ++ ' ' :: (joinSpace (q2 :: rest2)).data := by
        show (p ++ " " ++ joinSpace (q2 :: rest2)).data = _
        rw [String.data_append, String.data_append]
        show p.data ++ [' '] ++ _ = _
        rw [List.append_assoc]
        rfl
      rw [hdata]
      exact containsSub_glue n _ _ hne hsp (hall p (List.mem_cons_self _ _))
        (ih (fun r hr => hall r (List.mem_cons_of_mem _ hr)))

theorem containsSub_jsTrim (s : String) (n : List Char)
    (hs : containsSub s.data n = false) : containsSub (jsTrim s).data n = false := by
  cases hcc : containsSub (jsTrim s).data n with
  | false => rfl
  | true =>
    exfalso
    have h := (containsSub_true_iff n _).mp hcc
    have hinf : (jsTrim s).data <:+: s.data := by
      show (((s.data.dropWhile isJsSpace).reverse.dropWhile isJsSpace).reverse) <:+: s.data
      have h1 : (s.data.dropWhile isJsSpace) <:+ s.data := List.dropWhile_suffix _
      have h3 : ((s.data.dropWhile isJsSpace).reverse.dropWhile isJsSpace) <:+
          (s.data.dropWhile isJsSpace).reverse := List.dropWhile_suffix _
      rw [show ((s.data.dropWhile isJsSpace).reverse.dropWhile isJsSpace) =
          (((s.data.dropWhile isJsSpace).reverse.dropWhile isJsSpace).reverse).reverse by
        rw [List.reverse_reverse]] at h3
      exact (List.reverse_suffix.mp h3).isInfix.trans h1.isInfix
    have hs2 := (containsSub_true_iff n s.data).mpr (h.trans hinf)
    rw [hs] at hs2
    exact Bool.noConfusion hs2

theorem jsOrEmpty_no_undef (o : Option String)
    (ho : ∀ v, o = some v → strContains v "undefined" = false) :
    containsSub (jsOrEmpty o).data undefChars = false := by
  cases o with
  | none =>
    show containsSub [] undefChars = false
    rfl
  | some v =>
    show containsSub v.data undefChars = false
    exact ho v rfl

/-- C8: the query builders are pure functions — identical request fields
give character-identical query strings — absent optional fields are
omitted (the `filter(Boolean)` builder produces the same string as if the
field were not there at all), and as long as the caller-supplied strings
do not themselves contain the substring "undefined", none of the built
provider queries contains the literal substring "undefined". -/
theorem query_builder_pure_no_undefined
    (q : String) (industry font designStyle color : Option String)
    (colorPalette : List String)
    (hq : strContains q "undefined" = false)
    (hi : ∀ v, industry = some v → strContains v "undefined" = false)
    (hf : ∀ v, font = some v → strContains v "undefined" = false)
    (hd : ∀ v, designStyle = some v → strContains v "undefined" = false)
    (hc : ∀ v, color = some v → strContains v "undefined" = false)
    (hcp : ∀ v ∈ colorPalette, strContains v "undefined" = false) :
    (∀ (q2 : String) (i2 f2 : Option String), q2 = q → i2 = industry → f2 = font →
      industryFontQuery q2 i2 f2 = industryFontQuery q industry font) ∧
    enhancedQuery q none font designStyle =
      filterBooleanJoin [some q, font, designStyle, some "design inspiration"] ∧
    strContains (industryFontQuery q industry font) "undefined" = false ∧
    strContains (colorStyleQuery q designStyle color) "undefined" = false ∧
    strContains (topIndustriesQuery designStyle) "undefined" = false ∧
    strContains (mainFreepikQuery q industry designStyle) "undefined" = false ∧
    strContains (colorFreepikQuery q colorPalette color) "undefined" = false ∧
    strContains (enhancedQuery q industry font designStyle) "undefined" = false := by
  have hne : undefChars ≠ [] := by decide
  have hsp : ' ' ∉ undefChars := by decide
  have hq' : containsSub q.data undefChars = false := hq
  refine ⟨?_, ?_, ?_, ?_, ?_, ?_, ?_, ?_⟩
  · intro q2 i2 f2 h1 h2 h3
    rw [h1, h2, h3]
  · rfl
  · show containsSub (industryFontQuery q industry font).data undefChars = false
    have hshape : (industryFontQuery q industry font).data =
        q.data ++ ' ' :: ((jsOrEmpty industry).data ++ ' ' ::
          ((jsOrEmpty font).data ++ ' ' :: ("design inspiration" : String).data)) := by
      show (q ++ " " ++ jsOrEmpty industry ++ " " ++ jsOrEmpty font ++
        " design inspiration").data = _
      simp only [String.data_append, List.append_assoc]
      rfl
    rw [hshape]
    exact containsSub_glue undefChars _ _ hne hsp hq'
      (containsSub_glue undefChars _ _ hne hsp (jsOrEmpty_no_undef industry hi)
        (containsSub_glue undefChars _ _ hne hsp (jsOrEmpty_no_undef font hf) (by decide)))
  · show containsSub (colorStyleQuery q designStyle color).data undefChars = false
    have hshape : (colorStyleQuery q designStyle color).data =
        q.data ++ ' ' :: ((jsOrEmpty designStyle).data ++ ' ' ::
          ((jsOrEmpty color).data ++ ' ' :: ("design inspiration" : String).data)) := by
      show (q ++ " " ++ jsOrEmpty designStyle ++ " " ++ jsOrEmpty color ++
        " design inspiration").data = _
      simp only [String.data_append, List.append_assoc]
      rfl
    rw [hshape]
    exact containsSub_glue undefChars _ _ hne hsp hq'
      (containsSub_glue undefChars _ _ hne hsp (jsOrEmpty_no_undef designStyle hd)
        (containsSub_glue undefChars _ _ hne hsp (jsOrEmpty_no_undef color hc) (by decide)))
  · show containsSub (topIndustriesQuery designStyle).data undefChars = false
    have hshape : (topIndustriesQuery designStyle).data =
        ("Top industries using" : String).data ++ ' ' ::
          ((jsOrEmpty designStyle).data ++ ' ' :: ("design" : String).data) := by
      show ("Top industries using " ++ jsOrEmpty designStyle ++ " design").data = _
      simp only [String.data_append, List.append_assoc]
      rfl
    rw [hshape]
    exact containsSub_glue undefChars _ _ hne hsp (by decide)
      (containsSub_glue undefChars _ _ hne hsp (jsOrEmpty_no_undef designStyle hd) (by decide))
  · show containsSub (mainFreepikQuery q industry designStyle).data undefChars = false
    refine containsSub_jsTrim _ undefChars ?_
    have hshape : (q ++ " " ++ jsOrEmpty industry ++ " " ++ jsOrEmpty designStyle).data =
        q.data ++ ' ' :: ((jsOrEmpty industry).data ++ ' ' :: (jsOrEmpty designStyle).data) := by
      simp only [String.data_append, List.append_assoc]
      rfl
    rw [hshape]
    exact containsSub_glue undefChars _ _ hne hsp hq'
      (containsSub_glue undefChars _ _ hne hsp (jsOrEmpty_no_undef industry hi)
        (jsOrEmpty_no_undef designStyle hd))
  · show containsSub (colorFreepikQuery q colorPalette color).data undefChars = false
    cases colorPalette with
    | nil =>
      show containsSub (jsTrim (q ++ " " ++ jsOrEmpty color)).data undefChars = false
      refine containsSub_jsTrim _ undefChars ?_
      have hshape : (q ++ " " ++ jsOrEmpty color).data =
          q.data ++ ' ' :: (jsOrEmpty color).data := by
        simp only [String.data_append, List.append_assoc]
        rfl
      rw [hshape]
      exact containsSub_glue undefChars _ _ hne hsp hq' (jsOrEmpty_no_undef color hc)
    | cons c0 rest =>
      show containsSub (jsTrim (q ++ " " ++ c0)).data undefChars = false
      refine containsSub_jsTrim _ undefChars ?_
      have hshape : (q ++ " " ++ c0).data = q.data ++ ' ' :: c0.data := by
        simp only [String.data_append, List.append_assoc]
        rfl
      rw [hshape]
      exact containsSub_glue undefChars _ _ hne hsp hq'
        (hcp c0 (List.mem_cons_self _ _))
  · show containsSub (enhancedQuery q industry font designStyle).data undefChars = false
    refine joinSpace_no_needle undefChars hne hsp _ ?_
    intro p hp
    have hp2 := (List.mem_filter.mp hp).1
    obtain ⟨o, ho, hid⟩ := List.mem_filterMap.mp hp2
    have hosome : o = some p := hid
    subst hosome
    simp only [List.mem_cons, List.not_mem_nil, or_false] at ho
    rcases ho with h | h | h | h | h
    · have hpq : p = q := Option.some.inj h
      rw [hpq]; exact hq'
    · exact hi p h.symm
    · exact hf p h.symm
    · exact hd p h.symm
    · have hpd : p = "design inspiration" := Option.some.inj h
      rw [hpd]; decide

/-- Concrete instance for `query_builder_pure_no_undefined`. -/
theorem query_builder_pure_no_undefined_witness :
    strContains "coffee shop logo" "undefined" = false ∧
    (∀ v, (some "serif" : Option String) = some v → strContains v "undefined" = false) ∧
    strContains (industryFontQuery "coffee shop logo" none (some "serif")) "undefined" = false ∧
    strContains (enhancedQuery "coffee shop logo" none (some "serif") none) "undefined" = false :=
  ⟨by decide, by intro v h; cases h; decide,
    (query_builder_pure_no_undefined "coffee shop logo" none (some "serif") none none []
      (by decide) (by intro v h; cases h) (by intro v h; cases h; decide)
      (by intro v h; cases h) (by intro v h; cases h)
      (by intro v h; cases h)).2.2.1,
    (query_builder_pure_no_undefined "coffee shop logo" none (some "serif") none none []
      (by decide) (by intro v h; cases h) (by intro v h; cases h; decide)
      (by intro v h; cases h) (by intro v h; cases h)
      (by intro v h; cases h)).2.2.2.2.2.2.2⟩
